import Mathlib

/-!
Verification of the state-management tutorial notebook
(`python/packages/autogen-core/docs/src/user-guide/agentchat-user-guide/tutorial/state.ipynb`).

The notebook is a straight-line script exercising the library's
`save_state` / `load_state` / `reset` APIs on an `AssistantAgent` and a
`RoundRobinGroupChat`, and round-tripping the team state through
`json.dump` / `json.load` on `coding/team_state.json`.

The development has three parts:

1. a JSON fragment (`JVal`) with a printer (`dumpVal`) modelling Python's
   `json.dump` (default separators, the escapes it uses on the strings that
   occur here) and a parser (`parseVal`) modelling `json.load`, with a proved
   printer/parser round trip;
2. a model of the library state machinery (agent / team snapshots,
   `save_state`, `load_state`, `reset`), modelled from the spec since the
   library itself is not part of this source tree;
3. a syntactic embedding of the notebook's code cells (`notebookProgram`)
   with the structural analyses the spec's claims are about (cancellation
   tokens, error handling, awaits, straight-line shape).
-/

/-! ### Part 1: the JSON fragment

Values cover exactly what the notebook's `save_state` snapshots contain:
`null`, integers, strings, arrays and objects.  Arrays and objects are
mutual inductives so that all recursions and inductions are plainly mutual
structural ones. -/

mutual

inductive JVal : Type where
  | jnull : JVal
  | jint (n : Int) : JVal
  | jstr (s : List Char) : JVal
  | jarr (elems : JArr) : JVal
  | jobj (members : JObj) : JVal

inductive JArr : Type where
  | anil : JArr
  | acons (head : JVal) (tail : JArr) : JArr

inductive JObj : Type where
  | onil : JObj
  | ocons (key : List Char) (value : JVal) (tail : JObj) : JObj

end

deriving instance DecidableEq for JVal, JArr, JObj

/-- Opening brace character, written by code point to keep braces out of
character literals. -/
def lcurl : Char := Char.ofNat 123

/-- Closing brace character. -/
def rcurl : Char := Char.ofNat 125

/-- JSON whitespace, as accepted by Python's `json.load`. -/
def isJsonWs (c : Char) : Bool :=
  c = ' ' || c = '\n' || c = '\t' || c = '\r'

/-- Decimal digit characters of a positive number, most significant first.
The first argument is fuel (structural, so the kernel can evaluate it);
`natDigits` below instantiates it sufficiently. -/
def natDigitsAux : Nat → Nat → List Char
  | 0, _ => []
  | fuel + 1, n =>
      if n = 0 then [] else natDigitsAux fuel (n / 10) ++ [Char.ofNat (n % 10 + 48)]

/-- Decimal digit characters of a positive number, most significant first. -/
def natDigits (n : Nat) : List Char := natDigitsAux n n

/-- Decimal rendering of a natural number (`0` included). -/
def natChars (n : Nat) : List Char :=
  if n = 0 then ['0'] else natDigits n

/-- Decimal rendering of an integer, as `json.dump` writes it. -/
def intChars (i : Int) : List Char :=
  if i < 0 then '-' :: natChars i.natAbs else natChars i.toNat

/-- One character of string content, escaped the way Python's `json.dump`
escapes it (for the character set `wfChar` below). -/
def escChar (c : Char) : List Char :=
  if c = '"' then ['\\', '"']
  else if c = '\\' then ['\\', '\\']
  else if c = '\n' then ['\\', 'n']
  else if c = '\t' then ['\\', 't']
  else if c = '\r' then ['\\', 'r']
  else [c]

/-- A rendered string: quote, escaped content, quote. -/
def strChars (s : List Char) : List Char :=
  '"' :: (s.flatMap escChar ++ ['"'])

mutual

/-- Rendering of a value, exactly as Python's `json.dump` with its default
separators (`", "` between items, `": "` after keys) writes it. -/
def dumpVal : JVal → List Char
  | .jnull => ['n', 'u', 'l', 'l']
  | .jint n => intChars n
  | .jstr s => strChars s
  | .jarr .anil => ['[', ']']
  | .jarr (.acons v t) => '[' :: (dumpVal v ++ dumpArrTail t)
  | .jobj .onil => [lcurl, rcurl]
  | .jobj (.ocons k v t) =>
      lcurl :: (strChars k ++ ':' :: ' ' :: (dumpVal v ++ dumpObjTail t))

/-- Renders `", item"` for each remaining element, then the closing bracket. -/
def dumpArrTail : JArr → List Char
  | .anil => [']']
  | .acons v t => ',' :: ' ' :: (dumpVal v ++ dumpArrTail t)

/-- Renders `", key: value"` for each remaining member, then the closing brace. -/
def dumpObjTail : JObj → List Char
  | .onil => [rcurl]
  | .ocons k v t =>
      ',' :: ' ' :: (strChars k ++ ':' :: ' ' :: (dumpVal v ++ dumpObjTail t))

end

mutual

/-- Fuel measure for the parser: enough recursion depth to parse a value. -/
def sizeVal : JVal → Nat
  | .jnull => 1
  | .jint _ => 1
  | .jstr _ => 1
  | .jarr a => sizeArr a + 1
  | .jobj o => sizeObj o + 1

/-- Fuel measure for an element list. -/
def sizeArr : JArr → Nat
  | .anil => 0
  | .acons v t => sizeVal v + sizeArr t + 1

/-- Fuel measure for a member list. -/
def sizeObj : JObj → Nat
  | .onil => 0
  | .ocons _ v t => sizeVal v + sizeObj t + 1

end

/-- Drop leading JSON whitespace, as `json.load` does between tokens. -/
def skipWs (l : List Char) : List Char := l.dropWhile isJsonWs

/-- Greedy digit run at the head of the input, with the rest. -/
def splitDigits (l : List Char) : List Char × List Char :=
  (l.takeWhile Char.isDigit, l.dropWhile Char.isDigit)

/-- Numeric value of a digit run, most significant first. -/
def digitsVal (ds : List Char) : Nat :=
  ds.foldl (fun acc c => acc * 10 + (c.toNat - 48)) 0

/-- Parse a natural number literal at the head of the input. -/
def parseNat (l : List Char) : Option (Nat × List Char) :=
  match splitDigits l with
  | ([], _) => none
  | (ds, rest) => some (digitsVal ds, rest)

/-- Undo one escape character, as `json.load` does after a backslash. -/
def unescChar (c : Char) : Option Char :=
  if c = '"' then some '"'
  else if c = '\\' then some '\\'
  else if c = 'n' then some '\n'
  else if c = 't' then some '\t'
  else if c = 'r' then some '\r'
  else none

/-- Parse string content after the opening quote, up to and including the
closing quote. -/
def parseStrBody : List Char → Option (List Char × List Char)
  | [] => none
  | [c] => if c = '"' then some ([], []) else none
  | c :: e :: rest =>
      if c = '"' then some ([], e :: rest)
      else if c = '\\' then
        match unescChar e, parseStrBody rest with
        | some u, some (s, r) => some (u :: s, r)
        | _, _ => none
      else
        match parseStrBody (e :: rest) with
        | some (s, r) => some (c :: s, r)
        | none => none

mutual

/-- Fueled recursive-descent parser for one JSON value, modelling the
grammar `json.load` accepts on the fragment `dumpVal` produces. -/
def parseVal : Nat → List Char → Option (JVal × List Char)
  | 0, _ => none
  | fuel + 1, input =>
      match skipWs input with
      | [] => none
      | c :: rest =>
          if c = 'n' then
            match rest with
            | 'u' :: 'l' :: 'l' :: r => some (.jnull, r)
            | _ => none
          else if c = '"' then
            match parseStrBody rest with
            | some (s, r) => some (.jstr s, r)
            | none => none
          else if c = '[' then
            match skipWs rest with
            | [] => none
            | d :: r2 =>
                if d = ']' then some (.jarr .anil, r2)
                else
                  match parseElems fuel (d :: r2) with
                  | some (a, r) => some (.jarr a, r)
                  | none => none
          else if c = lcurl then
            match skipWs rest with
            | [] => none
            | d :: r2 =>
                if d = rcurl then some (.jobj .onil, r2)
                else
                  match parseMembers fuel (d :: r2) with
                  | some (o, r) => some (.jobj o, r)
                  | none => none
          else if c = '-' then
            match parseNat rest with
            | some (n, r) => some (.jint (-(n : Int)), r)
            | none => none
          else if c.isDigit then
            match parseNat (c :: rest) with
            | some (n, r) => some (.jint (n : Int), r)
            | none => none
          else none

/-- Parse one-or-more comma-separated array elements and the closing
bracket (the empty array is handled in `parseVal`). -/
def parseElems : Nat → List Char → Option (JArr × List Char)
  | 0, _ => none
  | fuel + 1, input =>
      match parseVal fuel input with
      | none => none
      | some (v, r) =>
          match skipWs r with
          | ',' :: r2 =>
              match parseElems fuel r2 with
              | some (a, r3) => some (.acons v a, r3)
              | none => none
          | ']' :: r2 => some (.acons v .anil, r2)
          | _ => none

/-- Parse one-or-more comma-separated object members and the closing brace
(the empty object is handled in `parseVal`). -/
def parseMembers : Nat → List Char → Option (JObj × List Char)
  | 0, _ => none
  | fuel + 1, input =>
      match skipWs input with
      | [] => none
      | c :: r0 =>
          if c = '"' then
            match parseStrBody r0 with
            | none => none
            | some (k, r1) =>
                match skipWs r1 with
                | [] => none
                | d :: r2 =>
                    if d = ':' then
                      match parseVal fuel r2 with
                      | none => none
                      | some (v, r3) =>
                          match skipWs r3 with
                          | [] => none
                          | e :: r4 =>
                              if e = ',' then
                                match parseMembers fuel r4 with
                                | some (o, r5) => some (.ocons k v o, r5)
                                | none => none
                              else if e = rcurl then some (.ocons k v .onil, r4)
                              else none
                    else none
          else none

end

/-- Full-document model of `json.load`: parse one value, require only
whitespace after it.  The fuel is sufficient for any input (proved below). -/
def jsonLoad (l : List Char) : Option JVal :=
  match parseVal (l.length + 1) l with
  | some (v, r) => if skipWs r = [] then some v else none
  | none => none

/-- Model of `json.dump`: the rendered character stream written to the file. -/
def jsonDump (v : JVal) : List Char := dumpVal v

/-! ### Round-trip lemmas: numbers -/

/-- A context that cannot extend a rendered number: empty input or a
non-digit head.  Every position `dumpVal` puts after a number qualifies. -/
def delimOk : List Char → Bool
  | [] => true
  | c :: _ => !c.isDigit

theorem digitChar_spec (k : Nat) (hk : k < 10) :
    (Char.ofNat (k + 48)).toNat = k + 48 ∧ (Char.ofNat (k + 48)).isDigit = true := by
  interval_cases k <;> exact ⟨by decide, by decide⟩

theorem natDigitsAux_digits (fuel : Nat) :
    ∀ (n : Nat), ∀ c ∈ natDigitsAux fuel n, c.isDigit = true := by
  induction fuel with
  | zero => intro n c hc; simp [natDigitsAux] at hc
  | succ f ih =>
      intro n c hc
      by_cases hn : n = 0
      · simp [natDigitsAux, hn] at hc
      · simp only [natDigitsAux, if_neg hn, List.mem_append, List.mem_singleton] at hc
        rcases hc with hc | hc
        · exact ih _ c hc
        · subst hc; exact (digitChar_spec (n % 10) (Nat.mod_lt _ (by omega))).2

theorem natDigitsAux_ne_nil (fuel n : Nat) (hn : n ≠ 0) (hf : n ≤ fuel) :
    natDigitsAux fuel n ≠ [] := by
  cases fuel with
  | zero => omega
  | succ f => simp [natDigitsAux, hn]

theorem digitsVal_append (ds : List Char) (c : Char) :
    digitsVal (ds ++ [c]) = digitsVal ds * 10 + (c.toNat - 48) := by
  simp [digitsVal, List.foldl_append]

theorem digitsVal_natDigitsAux : ∀ (fuel n : Nat), n ≤ fuel →
    digitsVal (natDigitsAux fuel n) = n := by
  intro fuel
  induction fuel with
  | zero =>
      intro n hn
      have : n = 0 := by omega
      subst this; simp [natDigitsAux, digitsVal]
  | succ f ih =>
      intro n hn
      by_cases h0 : n = 0
      · subst h0; simp [natDigitsAux, digitsVal]
      · have hdiv : n / 10 ≤ f := by omega
        simp only [natDigitsAux, if_neg h0, digitsVal_append, ih _ hdiv,
          (digitChar_spec (n % 10) (by omega)).1]
        omega

theorem natChars_digits (n : Nat) : ∀ c ∈ natChars n, c.isDigit = true := by
  intro c hc
  by_cases h0 : n = 0
  · subst h0; simp [natChars] at hc; subst hc; decide
  · simp only [natChars, if_neg h0, natDigits] at hc
    exact natDigitsAux_digits n n c hc

theorem natChars_ne_nil (n : Nat) : natChars n ≠ [] := by
  by_cases h0 : n = 0
  · subst h0; simp [natChars]
  · simp only [natChars, if_neg h0, natDigits]
    exact natDigitsAux_ne_nil n n h0 (le_refl n)

theorem digitsVal_natChars (n : Nat) : digitsVal (natChars n) = n := by
  by_cases h0 : n = 0
  · subst h0; simp [natChars, digitsVal]
  · simp only [natChars, if_neg h0, natDigits]
    exact digitsVal_natDigitsAux n n (le_refl n)

theorem natChars_head (n : Nat) :
    ∃ c t, natChars n = c :: t ∧ c.isDigit = true := by
  cases h : natChars n with
  | nil => exact absurd h (natChars_ne_nil n)
  | cons c t =>
      refine ⟨c, t, rfl, natChars_digits n c ?_⟩
      rw [h]; exact List.mem_cons_self c t

theorem splitDigits_append (ds rest : List Char)
    (hds : ∀ c ∈ ds, c.isDigit = true) (hr : delimOk rest = true) :
    splitDigits (ds ++ rest) = (ds, rest) := by
  induction ds with
  | nil =>
      cases rest with
      | nil => rfl
      | cons c t =>
          simp only [delimOk, Bool.not_eq_true'] at hr
          simp [splitDigits, hr]
  | cons c t ih =>
      have hc : c.isDigit = true := hds c (List.mem_cons_self c t)
      have ht := ih (fun x hx => hds x (List.mem_cons_of_mem c hx))
      simp only [splitDigits, Prod.mk.injEq] at ht
      simp [splitDigits, hc, ht.1, ht.2]

theorem parseNat_natChars (n : Nat) (rest : List Char) (hr : delimOk rest = true) :
    parseNat (natChars n ++ rest) = some (n, rest) := by
  have hsplit := splitDigits_append (natChars n) rest (natChars_digits n) hr
  obtain ⟨c, t, hc, _⟩ := natChars_head n
  rw [parseNat, hsplit, hc]
  simp [← hc, digitsVal_natChars]

/-! ### Round-trip lemmas: strings and whitespace -/

theorem skipWs_cons_of_not_ws {c : Char} (l : List Char) (h : isJsonWs c = false) :
    skipWs (c :: l) = c :: l := by
  simp [skipWs, List.dropWhile_cons, h]

theorem skipWs_cons_space (l : List Char) : skipWs (' ' :: l) = skipWs l := by
  have h : isJsonWs ' ' = true := by decide
  simp [skipWs, List.dropWhile_cons, h]

theorem parseStrBody_quote (rest : List Char) :
    parseStrBody ('"' :: rest) = some ([], rest) := by
  cases rest with
  | nil => rfl
  | cons e t => rfl

theorem parseStrBody_raw {c : Char} (l : List Char) (hq : c ≠ '"') (hb : c ≠ '\\') :
    parseStrBody (c :: l) =
      (parseStrBody l).map (fun p => (c :: p.1, p.2)) := by
  cases l with
  | nil => simp [parseStrBody, hq]
  | cons e t =>
      simp only [parseStrBody, if_neg hq, if_neg hb]
      cases parseStrBody (e :: t) with
      | none => rfl
      | some p => rfl

theorem parseStrBody_escaped {e u : Char} (l : List Char) (hu : unescChar e = some u) :
    parseStrBody ('\\' :: e :: l) =
      (parseStrBody l).map (fun p => (u :: p.1, p.2)) := by
  simp only [parseStrBody, if_neg (by decide : ¬('\\' = '"')), if_pos rfl, hu]
  cases parseStrBody l with
  | none => rfl
  | some p => rfl

theorem parseStrBody_escChar (c : Char) (l : List Char) :
    parseStrBody (escChar c ++ l) =
      (parseStrBody l).map (fun p => (c :: p.1, p.2)) := by
  by_cases h1 : c = '"'
  · subst h1; rw [show escChar '"' = ['\\', '"'] from rfl]
    exact parseStrBody_escaped l (by decide)
  by_cases h2 : c = '\\'
  · subst h2; rw [show escChar '\\' = ['\\', '\\'] from rfl]
    exact parseStrBody_escaped l (by decide)
  by_cases h3 : c = '\n'
  · subst h3; rw [show escChar '\n' = ['\\', 'n'] from rfl]
    exact parseStrBody_escaped l (by decide)
  by_cases h4 : c = '\t'
  · subst h4; rw [show escChar '\t' = ['\\', 't'] from rfl]
    exact parseStrBody_escaped l (by decide)
  by_cases h5 : c = '\r'
  · subst h5; rw [show escChar '\r' = ['\\', 'r'] from rfl]
    exact parseStrBody_escaped l (by decide)
  · rw [show escChar c = [c] from by simp [escChar, h1, h2, h3, h4, h5]]
    exact parseStrBody_raw l h1 h2

theorem parseStrBody_roundtrip (s : List Char) (rest : List Char) :
    parseStrBody (s.flatMap escChar ++ '"' :: rest) = some (s, rest) := by
  induction s with
  | nil => simp [parseStrBody_quote]
  | cons c t ih =>
      rw [List.flatMap_cons, List.append_assoc, parseStrBody_escChar, ih]
      rfl

theorem parseStrBody_strChars (s : List Char) (x : List Char) :
    strChars s ++ x = '"' :: (s.flatMap escChar ++ '"' :: x) := by
  simp [strChars]

/-! ### Round-trip lemmas: heads, delimiters, spacing -/

theorem digit_facts {c : Char} (h : c.isDigit = true) :
    c ≠ 'n' ∧ c ≠ '"' ∧ c ≠ '[' ∧ c ≠ lcurl ∧ c ≠ '-' ∧ c ≠ ']' ∧
    isJsonWs c = false := by
  have h1 : c ≠ 'n' := fun e => absurd (e ▸ h) (by decide)
  have h2 : c ≠ '"' := fun e => absurd (e ▸ h) (by decide)
  have h3 : c ≠ '[' := fun e => absurd (e ▸ h) (by decide)
  have h4 : c ≠ lcurl := fun e => absurd (e ▸ h) (by decide)
  have h5 : c ≠ '-' := fun e => absurd (e ▸ h) (by decide)
  have h6 : c ≠ ']' := fun e => absurd (e ▸ h) (by decide)
  have w1 : c ≠ ' ' := fun e => absurd (e ▸ h) (by decide)
  have w2 : c ≠ '\n' := fun e => absurd (e ▸ h) (by decide)
  have w3 : c ≠ '\t' := fun e => absurd (e ▸ h) (by decide)
  have w4 : c ≠ '\r' := fun e => absurd (e ▸ h) (by decide)
  exact ⟨h1, h2, h3, h4, h5, h6, by simp [isJsonWs, w1, w2, w3, w4]⟩

theorem sizeVal_pos (v : JVal) : 1 ≤ sizeVal v := by
  cases v <;> simp [sizeVal]

/-- Every rendered value starts with a character that is neither whitespace
nor a closing bracket. -/
theorem dumpVal_head (v : JVal) :
    ∃ c t, dumpVal v = c :: t ∧ isJsonWs c = false ∧ c ≠ ']' := by
  cases v with
  | jnull => exact ⟨'n', _, rfl, by decide, by decide⟩
  | jstr s =>
      exact ⟨'"', s.flatMap escChar ++ ['"'], by simp [dumpVal, strChars], by decide, by decide⟩
  | jint n =>
      by_cases hneg : n < 0
      · exact ⟨'-', natChars n.natAbs, by simp [dumpVal, intChars, hneg], by decide, by decide⟩
      · obtain ⟨c, t, hct, hdig⟩ := natChars_head n.toNat
        obtain ⟨_, _, _, _, _, h6, h7⟩ := digit_facts hdig
        exact ⟨c, t, by simp [dumpVal, intChars, hneg, hct], h7, h6⟩
  | jarr a =>
      cases a with
      | anil => exact ⟨'[', _, rfl, by decide, by decide⟩
      | acons v t => exact ⟨'[', _, rfl, by decide, by decide⟩
  | jobj o =>
      cases o with
      | onil => exact ⟨lcurl, _, rfl, by decide, by decide⟩
      | ocons k v t => exact ⟨lcurl, _, rfl, by decide, by decide⟩

/-- The tail of a rendered nonempty array, from its first element on
(everything after the opening bracket). -/
def dumpSeqA : JArr → List Char
  | .anil => [']']
  | .acons v t => dumpVal v ++ dumpArrTail t

/-- The tail of a rendered nonempty object, from its first key on
(everything after the opening brace). -/
def dumpSeqO : JObj → List Char
  | .onil => [rcurl]
  | .ocons k v t => strChars k ++ ':' :: ' ' :: (dumpVal v ++ dumpObjTail t)

theorem dumpVal_jarr_cons (v : JVal) (t : JArr) :
    dumpVal (.jarr (.acons v t)) = '[' :: dumpSeqA (.acons v t) := rfl

theorem dumpVal_jobj_cons (k : List Char) (v : JVal) (t : JObj) :
    dumpVal (.jobj (.ocons k v t)) = lcurl :: dumpSeqO (.ocons k v t) := rfl

theorem dumpArrTail_cons (v : JVal) (t : JArr) :
    dumpArrTail (.acons v t) = ',' :: ' ' :: dumpSeqA (.acons v t) := rfl

theorem dumpObjTail_cons (k : List Char) (v : JVal) (t : JObj) :
    dumpObjTail (.ocons k v t) = ',' :: ' ' :: dumpSeqO (.ocons k v t) := rfl

theorem delimOk_dumpArrTail (t : JArr) (rest : List Char) :
    delimOk (dumpArrTail t ++ rest) = true := by
  cases t with
  | anil => simp [dumpArrTail, delimOk]
  | acons v t2 => simp [dumpArrTail, delimOk]

theorem delimOk_dumpObjTail (t : JObj) (rest : List Char) :
    delimOk (dumpObjTail t ++ rest) = true := by
  cases t with
  | onil => simp [dumpObjTail, delimOk]; decide
  | ocons k v t2 => simp [dumpObjTail, delimOk]

theorem parseVal_cons_space (f : Nat) (l : List Char) (hf : 1 ≤ f) :
    parseVal f (' ' :: l) = parseVal f l := by
  cases f with
  | zero => omega
  | succ f2 => simp only [parseVal, skipWs_cons_space]

theorem parseElems_cons_space (f : Nat) (l : List Char) (hf : 2 ≤ f) :
    parseElems f (' ' :: l) = parseElems f l := by
  cases f with
  | zero => omega
  | succ f2 => simp only [parseElems, parseVal_cons_space f2 l (by omega)]

theorem parseMembers_cons_space (f : Nat) (l : List Char) (hf : 1 ≤ f) :
    parseMembers f (' ' :: l) = parseMembers f l := by
  cases f with
  | zero => omega
  | succ f2 => simp only [parseMembers, skipWs_cons_space]

/-! ### Parser step lemmas (definitional unfoldings at concrete heads) -/

theorem skipWs_colon (l : List Char) : skipWs (':' :: l) = ':' :: l := rfl

theorem skipWs_comma (l : List Char) : skipWs (',' :: l) = ',' :: l := rfl

theorem skipWs_rbracket (l : List Char) : skipWs (']' :: l) = ']' :: l := rfl

theorem skipWs_rcurl (l : List Char) : skipWs (rcurl :: l) = rcurl :: l := rfl

theorem parseVal_succ_null (f : Nat) (r : List Char) :
    parseVal (f + 1) ('n' :: 'u' :: 'l' :: 'l' :: r) = some (.jnull, r) := rfl

theorem parseVal_succ_quote (f : Nat) (l : List Char) :
    parseVal (f + 1) ('"' :: l)
      = (match parseStrBody l with
         | some (s, r) => some (.jstr s, r)
         | none => none) := rfl

theorem parseVal_succ_lbracket (f : Nat) (l : List Char) :
    parseVal (f + 1) ('[' :: l)
      = (match skipWs l with
         | [] => none
         | d :: r2 =>
             if d = ']' then some (.jarr .anil, r2)
             else
               match parseElems f (d :: r2) with
               | some (a, r) => some (.jarr a, r)
               | none => none) := rfl

theorem parseVal_succ_lcurl (f : Nat) (l : List Char) :
    parseVal (f + 1) (lcurl :: l)
      = (match skipWs l with
         | [] => none
         | d :: r2 =>
             if d = rcurl then some (.jobj .onil, r2)
             else
               match parseMembers f (d :: r2) with
               | some (o, r) => some (.jobj o, r)
               | none => none) := rfl

theorem parseVal_succ_minus (f : Nat) (l : List Char) :
    parseVal (f + 1) ('-' :: l)
      = (match parseNat l with
         | some (n, r) => some (.jint (-(n : Int)), r)
         | none => none) := rfl

theorem parseVal_succ_digit (f : Nat) (c : Char) (l : List Char) (h : c.isDigit = true) :
    parseVal (f + 1) (c :: l)
      = (match parseNat (c :: l) with
         | some (n, r) => some (.jint (n : Int), r)
         | none => none) := by
  obtain ⟨h1, h2, h3, h4, h5, _, h7⟩ := digit_facts h
  simp only [parseVal, skipWs_cons_of_not_ws l h7, if_neg h1, if_neg h2, if_neg h3,
    if_neg h4, if_neg h5, if_pos h]

theorem parseElems_succ (f : Nat) (input : List Char) :
    parseElems (f + 1) input
      = (match parseVal f input with
         | none => none
         | some (v, r) =>
             match skipWs r with
             | ',' :: r2 =>
                 match parseElems f r2 with
                 | some (a, r3) => some (.acons v a, r3)
                 | none => none
             | ']' :: r2 => some (.acons v .anil, r2)
             | _ => none) := rfl

theorem parseMembers_succ_quote (f : Nat) (l : List Char) :
    parseMembers (f + 1) ('"' :: l)
      = (match parseStrBody l with
         | none => none
         | some (k, r1) =>
             match skipWs r1 with
             | [] => none
             | d :: r2 =>
                 if d = ':' then
                   match parseVal f r2 with
                   | none => none
                   | some (v, r3) =>
                       match skipWs r3 with
                       | [] => none
                       | e :: r4 =>
                           if e = ',' then
                             match parseMembers f r4 with
                             | some (o, r5) => some (.ocons k v o, r5)
                             | none => none
                           else if e = rcurl then some (.ocons k v .onil, r4)
                           else none
                 else none) := rfl

/-! ### The printer/parser round trip -/

mutual

/-- Parsing a rendered value recovers it, for any sufficient fuel and any
continuation that cannot extend a number. -/
theorem parseVal_dumpVal : ∀ (fuel : Nat) (v : JVal) (rest : List Char),
    sizeVal v ≤ fuel → delimOk rest = true →
    parseVal fuel (dumpVal v ++ rest) = some (v, rest)
  | 0, v, _, hsz, _ => absurd hsz (by have := sizeVal_pos v; omega)
  | fuel + 1, v, rest, hsz, hdel => by
      cases v with
      | jnull =>
          rw [show dumpVal .jnull ++ rest = 'n' :: 'u' :: 'l' :: 'l' :: rest from rfl,
            parseVal_succ_null]
      | jint n =>
          by_cases hneg : n < 0
          · rw [show dumpVal (.jint n) ++ rest = '-' :: (natChars n.natAbs ++ rest) from
              by simp [dumpVal, intChars, hneg], parseVal_succ_minus,
              parseNat_natChars _ _ hdel]
            have hn : (-((n.natAbs : Nat) : Int)) = n := by omega
            simp only [hn]
          · obtain ⟨c, t, hct, hdig⟩ := natChars_head n.toNat
            rw [show dumpVal (.jint n) ++ rest = c :: (t ++ rest) from
              by simp [dumpVal, intChars, hneg, hct], parseVal_succ_digit _ _ _ hdig,
              show c :: (t ++ rest) = natChars n.toNat ++ rest from by rw [hct]; rfl,
              parseNat_natChars _ _ hdel]
            have hn : (((n.toNat : Nat)) : Int) = n := by omega
            simp only [hn]
      | jstr s =>
          rw [show dumpVal (.jstr s) ++ rest = '"' :: (s.flatMap escChar ++ '"' :: rest) from
            by simp [dumpVal, strChars], parseVal_succ_quote, parseStrBody_roundtrip]
      | jarr a =>
          cases a with
          | anil =>
              rw [show dumpVal (.jarr .anil) ++ rest = '[' :: (']' :: rest) from rfl,
                parseVal_succ_lbracket, skipWs_rbracket]
              simp
          | acons v t =>
              have hsa : sizeArr (.acons v t) ≤ fuel := by
                simp only [sizeVal] at hsz; omega
              obtain ⟨c0, t0, hh, hws, hne⟩ := dumpVal_head v
              have hseq : dumpSeqA (.acons v t) ++ rest
                  = c0 :: (t0 ++ (dumpArrTail t ++ rest)) := by
                simp [dumpSeqA, hh]
              rw [show dumpVal (.jarr (.acons v t)) ++ rest
                    = '[' :: (dumpSeqA (.acons v t) ++ rest) from by
                  simp [dumpVal_jarr_cons],
                parseVal_succ_lbracket, hseq, skipWs_cons_of_not_ws _ hws]
              simp only [if_neg hne, ← hseq,
                parseElems_dumpSeqA fuel (.acons v t) rest hsa (by simp)]
      | jobj o =>
          cases o with
          | onil =>
              rw [show dumpVal (.jobj .onil) ++ rest = lcurl :: (rcurl :: rest) from rfl,
                parseVal_succ_lcurl, skipWs_rcurl]
              simp
          | ocons k v t =>
              have hso : sizeObj (.ocons k v t) ≤ fuel := by
                simp only [sizeVal] at hsz; omega
              have hseq : dumpSeqO (.ocons k v t) ++ rest
                  = '"' :: (k.flatMap escChar ++ ['"'] ++
                      (':' :: ' ' :: (dumpVal v ++ dumpObjTail t)) ++ rest) := by
                simp [dumpSeqO, strChars]
              rw [show dumpVal (.jobj (.ocons k v t)) ++ rest
                    = lcurl :: (dumpSeqO (.ocons k v t) ++ rest) from by
                  simp [dumpVal_jobj_cons],
                parseVal_succ_lcurl, hseq, skipWs_cons_of_not_ws _ (by decide)]
              simp only [if_neg (by decide : ¬('"' = rcurl)), ← hseq,
                parseMembers_dumpSeqO fuel (.ocons k v t) rest hso (by simp)]

/-- Parsing the rendered tail of a nonempty array recovers its elements. -/
theorem parseElems_dumpSeqA : ∀ (fuel : Nat) (a : JArr) (rest : List Char),
    sizeArr a ≤ fuel → a ≠ .anil →
    parseElems fuel (dumpSeqA a ++ rest) = some (a, rest)
  | _, .anil, _, _, hne => absurd rfl hne
  | 0, .acons v t, _, hsz, _ => by
      have := sizeVal_pos v; simp only [sizeArr] at hsz; omega
  | fuel + 1, .acons v t, rest, hsz, _ => by
      have hv : sizeVal v ≤ fuel := by simp only [sizeArr] at hsz; omega
      rw [show dumpSeqA (.acons v t) ++ rest = dumpVal v ++ (dumpArrTail t ++ rest) from
          by simp [dumpSeqA], parseElems_succ,
        parseVal_dumpVal fuel v _ hv (delimOk_dumpArrTail t rest)]
      cases t with
      | anil =>
          rw [show dumpArrTail JArr.anil ++ rest = ']' :: rest from rfl]
          simp only [skipWs_rbracket]
      | acons v2 t2 =>
          have hf2 : 2 ≤ fuel := by
            have := sizeVal_pos v; have := sizeVal_pos v2
            simp only [sizeArr] at hsz; omega
          have hta : sizeArr (.acons v2 t2) ≤ fuel := by
            have := sizeVal_pos v; simp only [sizeArr] at hsz ⊢; omega
          rw [show dumpArrTail (.acons v2 t2) ++ rest
                = ',' :: (' ' :: (dumpSeqA (.acons v2 t2) ++ rest)) from by
              simp [dumpArrTail_cons]]
          simp only [skipWs_comma, parseElems_cons_space fuel _ hf2,
            parseElems_dumpSeqA fuel (.acons v2 t2) rest hta (by simp)]

/-- Parsing the rendered tail of a nonempty object recovers its members. -/
theorem parseMembers_dumpSeqO : ∀ (fuel : Nat) (o : JObj) (rest : List Char),
    sizeObj o ≤ fuel → o ≠ .onil →
    parseMembers fuel (dumpSeqO o ++ rest) = some (o, rest)
  | _, .onil, _, _, hne => absurd rfl hne
  | 0, .ocons k v t, _, hsz, _ => by
      have := sizeVal_pos v; simp only [sizeObj] at hsz; omega
  | fuel + 1, .ocons k v t, rest, hsz, _ => by
      have hv : sizeVal v ≤ fuel := by simp only [sizeObj] at hsz; omega
      have hf1 : 1 ≤ fuel := by have := sizeVal_pos v; omega
      rw [show dumpSeqO (.ocons k v t) ++ rest
            = '"' :: (k.flatMap escChar ++ '"' ::
                (':' :: (' ' :: (dumpVal v ++ (dumpObjTail t ++ rest))))) from by
          simp [dumpSeqO, strChars],
        parseMembers_succ_quote, parseStrBody_roundtrip]
      simp only [skipWs_colon, reduceIte, parseVal_cons_space fuel _ hf1,
        parseVal_dumpVal fuel v _ hv (delimOk_dumpObjTail t rest)]
      cases t with
      | onil =>
          rw [show dumpObjTail JObj.onil ++ rest = rcurl :: rest from rfl]
          simp only [skipWs_rcurl, if_neg (by decide : ¬(rcurl = ',')), reduceIte]
      | ocons k2 v2 t2 =>
          have hto : sizeObj (.ocons k2 v2 t2) ≤ fuel := by
            have := sizeVal_pos v; simp only [sizeObj] at hsz ⊢; omega
          rw [show dumpObjTail (.ocons k2 v2 t2) ++ rest
                = ',' :: (' ' :: (dumpSeqO (.ocons k2 v2 t2) ++ rest)) from by
              simp [dumpObjTail_cons]]
          simp only [skipWs_comma, reduceIte, parseMembers_cons_space fuel _ hf1,
            parseMembers_dumpSeqO fuel (.ocons k2 v2 t2) rest hto (by simp)]

end

mutual

/-- The parser-fuel measure of a value is bounded by its rendered length. -/
theorem sizeVal_le_dump_length : ∀ (v : JVal), sizeVal v ≤ (dumpVal v).length
  | .jnull => by simp [sizeVal, dumpVal]
  | .jint n => by
      have h : dumpVal (.jint n) ≠ [] := by
        by_cases hneg : n < 0
        · simp [dumpVal, intChars, hneg]
        · simp only [dumpVal, intChars, if_neg hneg]
          exact natChars_ne_nil n.toNat
      have := List.length_pos.mpr h
      simp only [sizeVal]; omega
  | .jstr s => by simp [sizeVal, dumpVal, strChars]
  | .jarr .anil => by simp [sizeVal, sizeArr, dumpVal]
  | .jarr (.acons v t) => by
      have h1 := sizeVal_le_dump_length v
      have h2 := sizeArr_lt_tail_length t
      simp only [sizeVal, sizeArr, dumpVal, List.length_cons, List.length_append]
      omega
  | .jobj .onil => by simp [sizeVal, sizeObj, dumpVal]
  | .jobj (.ocons k v t) => by
      have h1 := sizeVal_le_dump_length v
      have h2 := sizeObj_lt_tail_length t
      simp only [sizeVal, sizeObj, dumpVal, List.length_cons, List.length_append]
      omega

/-- The fuel measure of remaining elements is below the rendered tail length. -/
theorem sizeArr_lt_tail_length : ∀ (a : JArr), sizeArr a + 1 ≤ (dumpArrTail a).length
  | .anil => by simp [sizeArr, dumpArrTail]
  | .acons v t => by
      have h1 := sizeVal_le_dump_length v
      have h2 := sizeArr_lt_tail_length t
      simp only [sizeArr, dumpArrTail, List.length_cons, List.length_append]
      omega

/-- The fuel measure of remaining members is below the rendered tail length. -/
theorem sizeObj_lt_tail_length : ∀ (o : JObj), sizeObj o + 1 ≤ (dumpObjTail o).length
  | .onil => by simp [sizeObj, dumpObjTail]
  | .ocons k v t => by
      have h1 := sizeVal_le_dump_length v
      have h2 := sizeObj_lt_tail_length t
      simp only [sizeObj, dumpObjTail, strChars, List.length_cons, List.length_append]
      omega

end

/-- Model of the notebook boundary behavior: reading back a dumped value
recovers it exactly (`json.load` inverts `json.dump`). -/
theorem jsonLoad_jsonDump (v : JVal) : jsonLoad (jsonDump v) = some v := by
  have hlen := sizeVal_le_dump_length v
  have h := parseVal_dumpVal ((dumpVal v).length + 1) v [] (by omega) rfl
  rw [List.append_nil] at h
  simp only [jsonLoad, jsonDump, h]
  rfl

/-! ### Part 2: the library state model

The `save_state` / `load_state` / `reset` machinery lives in the
`autogen_agentchat` / `autogen_core` libraries, which are not part of this
source tree (the notebook only calls them).  The definitions below are
therefore modelled from the spec and from the snapshot shapes the notebook
prints (`AssistantAgentState`, `TeamState`, `RoundRobinManagerState`,
`ChatAgentContainerState`). -/

/-- Modelled from the spec: one model-context message of an
`AssistantAgent` (the `llm_messages` entries printed by the notebook:
`content`, `source`, `type`). -/
structure LlmMessage where
  content : List Char
  source : List Char
  msgType : List Char
deriving DecidableEq

/-- Modelled from the spec: token usage attached to a chat message
(`prompt_tokens`, `completion_tokens`). -/
structure RequestUsage where
  prompt_tokens : Nat
  completion_tokens : Nat
deriving DecidableEq

/-- Modelled from the spec: one entry of a team's `message_thread`
(`source`, `models_usage`, `content`, `type`). -/
structure ChatMessage where
  source : List Char
  models_usage : Option RequestUsage
  content : List Char
  msgType : List Char
deriving DecidableEq

/-- Modelled from the spec: an `AssistantAgent`, whose configuration is its
name and system message and whose state is its model context
(`llm_messages`); the library defining it is not in this source tree. -/
structure AssistantAgent where
  name : List Char
  system_message : List Char
  llm_messages : List LlmMessage
deriving DecidableEq

/-- Modelled from the spec: the container wrapping one participant inside a
team (state `ChatAgentContainerState`: the agent state plus a message
buffer). -/
structure ChatAgentContainer where
  agent : AssistantAgent
  message_buffer : List ChatMessage
deriving DecidableEq

/-- Modelled from the spec: a `RoundRobinGroupChat` team — its identifier,
its participant containers, and the round-robin manager state
(`message_thread`, `current_turn`, `next_speaker_index`). -/
structure RoundRobinGroupChat where
  team_id : List Char
  containers : List ChatAgentContainer
  message_thread : List ChatMessage
  current_turn : Nat
  next_speaker_index : Nat
deriving DecidableEq

/-- Builds a `JArr` from a list of values. -/
def jarrOfList : List JVal → JArr
  | [] => .anil
  | v :: vs => .acons v (jarrOfList vs)

/-- Builds a `JObj` from an association list. -/
def jobjOfList : List (List Char × JVal) → JObj
  | [] => .onil
  | (k, v) :: rest => .ocons k v (jobjOfList rest)

/-- The list of values of a `JArr`. -/
def listOfJArr : JArr → List JVal
  | .anil => []
  | .acons v t => v :: listOfJArr t

/-- First value stored under a key, as a Python `dict` lookup. -/
def jGet (key : List Char) : JObj → Option JVal
  | .onil => none
  | .ocons k v rest => if k = key then some v else jGet key rest

/-- All-or-nothing traversal of a list under a fallible decoder. -/
def mapOpt {A B : Type} (g : A → Option B) : List A → Option (List B)
  | [] => some []
  | x :: xs =>
      match g x, mapOpt g xs with
      | some y, some ys => some (y :: ys)
      | _, _ => none

/-- Modelled from the spec: the JSON form of one `llm_messages` entry, as
printed by the notebook. -/
def llmMessageToJson (m : LlmMessage) : JVal :=
  .jobj (.ocons "content".data (.jstr m.content)
    (.ocons "source".data (.jstr m.source)
      (.ocons "type".data (.jstr m.msgType) .onil)))

/-- Modelled from the spec: the JSON form of a `models_usage` record. -/
def usageToJson (u : RequestUsage) : JVal :=
  .jobj (.ocons "prompt_tokens".data (.jint u.prompt_tokens)
    (.ocons "completion_tokens".data (.jint u.completion_tokens) .onil))

/-- Modelled from the spec: the JSON form of one `message_thread` entry. -/
def chatMessageToJson (m : ChatMessage) : JVal :=
  .jobj (.ocons "source".data (.jstr m.source)
    (.ocons "models_usage".data
        (match m.models_usage with
         | none => .jnull
         | some u => usageToJson u)
      (.ocons "content".data (.jstr m.content)
        (.ocons "type".data (.jstr m.msgType) .onil))))

/-- Modelled from the spec: `AssistantAgent.save_state`, returning the
`AssistantAgentState` dictionary the notebook prints (`type`, `version`,
`llm_messages`); the implementation is in the library, outside this tree. -/
def agentSaveState (a : AssistantAgent) : JVal :=
  .jobj (.ocons "type".data (.jstr "AssistantAgentState".data)
    (.ocons "version".data (.jstr "1.0.0".data)
      (.ocons "llm_messages".data
        (.jarr (jarrOfList (a.llm_messages.map llmMessageToJson))) .onil)))

/-- Modelled from the spec: the `RoundRobinManagerState` entry of a team
snapshot. -/
def managerSaveState (t : RoundRobinGroupChat) : JVal :=
  .jobj (.ocons "type".data (.jstr "RoundRobinManagerState".data)
    (.ocons "version".data (.jstr "1.0.0".data)
      (.ocons "message_thread".data
          (.jarr (jarrOfList (t.message_thread.map chatMessageToJson)))
        (.ocons "current_turn".data (.jint t.current_turn)
          (.ocons "next_speaker_index".data (.jint t.next_speaker_index) .onil)))))

/-- Modelled from the spec: the `ChatAgentContainerState` entry of a team
snapshot (the contained agent state plus its message buffer). -/
def containerSaveState (c : ChatAgentContainer) : JVal :=
  .jobj (.ocons "type".data (.jstr "ChatAgentContainerState".data)
    (.ocons "version".data (.jstr "1.0.0".data)
      (.ocons "agent_state".data (agentSaveState c.agent)
        (.ocons "message_buffer".data
          (.jarr (jarrOfList (c.message_buffer.map chatMessageToJson))) .onil))))

/-- The key under which a named participant appears in `agent_states`:
`name/team_id`, as in the notebook's printed snapshot. -/
def agentStateKey (name tid : List Char) : List Char := name ++ '/' :: tid

/-- Modelled from the spec: `RoundRobinGroupChat.save_state`, returning the
`TeamState` dictionary the notebook prints — `type`, `version`,
`agent_states` (the manager entry, the output-collector entry, and one
entry per participant container), and `team_id`. -/
def teamSaveState (t : RoundRobinGroupChat) : JVal :=
  .jobj (.ocons "type".data (.jstr "TeamState".data)
    (.ocons "version".data (.jstr "1.0.0".data)
      (.ocons "agent_states".data
          (.jobj (.ocons (agentStateKey "group_chat_manager".data t.team_id)
              (managerSaveState t)
            (.ocons (agentStateKey "collect_output_messages".data t.team_id)
                (.jobj .onil)
              (jobjOfList (t.containers.map fun c =>
                (agentStateKey c.agent.name t.team_id, containerSaveState c))))))
        (.ocons "team_id".data (.jstr t.team_id) .onil))))

/-- Decoder for one `llm_messages` entry. -/
def llmMessageOfJson : JVal → Option LlmMessage
  | .jobj o =>
      match jGet "content".data o, jGet "source".data o, jGet "type".data o with
      | some (.jstr c), some (.jstr s), some (.jstr ty) => some ⟨c, s, ty⟩
      | _, _, _ => none
  | _ => none

/-- Decoder for a `models_usage` record. -/
def usageOfJson : JVal → Option RequestUsage
  | .jobj o =>
      match jGet "prompt_tokens".data o, jGet "completion_tokens".data o with
      | some (.jint p), some (.jint q) =>
          if p < 0 ∨ q < 0 then none else some ⟨p.toNat, q.toNat⟩
      | _, _ => none
  | _ => none

/-- Decoder for one `message_thread` entry. -/
def chatMessageOfJson : JVal → Option ChatMessage
  | .jobj o =>
      match jGet "source".data o, jGet "models_usage".data o,
            jGet "content".data o, jGet "type".data o with
      | some (.jstr s), some mu, some (.jstr c), some (.jstr ty) =>
          match mu with
          | .jnull => some ⟨s, none, c, ty⟩
          | u =>
              match usageOfJson u with
              | some ru => some ⟨s, some ru, c, ty⟩
              | none => none
      | _, _, _, _ => none
  | _ => none

/-- Modelled from the spec: `AssistantAgent.load_state` — restores the model
context (`llm_messages`) from a snapshot into an existing agent, leaving
its configuration (name, system message) unchanged. -/
def agentLoadState (a : AssistantAgent) (v : JVal) : Option AssistantAgent :=
  match v with
  | .jobj o =>
      match jGet "llm_messages".data o with
      | some (.jarr arr) =>
          match mapOpt llmMessageOfJson (listOfJArr arr) with
          | some ms => some { a with llm_messages := ms }
          | none => none
      | _ => none
  | _ => none

/-- Decoder for the `RoundRobinManagerState` entry: the message thread and
the two counters. -/
def managerLoadState (v : JVal) : Option (List ChatMessage × Nat × Nat) :=
  match v with
  | .jobj o =>
      match jGet "message_thread".data o, jGet "current_turn".data o,
            jGet "next_speaker_index".data o with
      | some (.jarr arr), some (.jint ct), some (.jint ns) =>
          match mapOpt chatMessageOfJson (listOfJArr arr) with
          | some ms => if ct < 0 ∨ ns < 0 then none else some (ms, ct.toNat, ns.toNat)
          | none => none
      | _, _, _ => none
  | _ => none

/-- Modelled from the spec: restoring one participant container from its
`ChatAgentContainerState` entry. -/
def containerLoadState (c : ChatAgentContainer) (v : JVal) : Option ChatAgentContainer :=
  match v with
  | .jobj o =>
      match jGet "agent_state".data o, jGet "message_buffer".data o with
      | some av, some (.jarr arr) =>
          match agentLoadState c.agent av, mapOpt chatMessageOfJson (listOfJArr arr) with
          | some a2, some buf => some ⟨a2, buf⟩
          | _, _ => none
      | _, _ => none
  | _ => none

/-- Restores each participant container from its keyed entry, in order. -/
def containersLoadState :
    List ChatAgentContainer → JObj → List Char → Option (List ChatAgentContainer)
  | [], .onil, _ => some []
  | c :: cs, .ocons k j rest, tid =>
      if k = agentStateKey c.agent.name tid then
        match containerLoadState c j, containersLoadState cs rest tid with
        | some c2, some cs2 => some (c2 :: cs2)
        | _, _ => none
      else none
  | _, _, _ => none

/-- Modelled from the spec: `RoundRobinGroupChat.load_state` — loads a
`TeamState` dictionary back into an existing team, restoring the manager
state and every participant's state; the implementation is in the library,
outside this tree. -/
def teamLoadState (t : RoundRobinGroupChat) (v : JVal) : Option RoundRobinGroupChat :=
  match v with
  | .jobj o =>
      match jGet "team_id".data o, jGet "agent_states".data o with
      | some (.jstr tid), some (.jobj (.ocons k1 mgrJ (.ocons k2 _ rest))) =>
          if k1 = agentStateKey "group_chat_manager".data tid ∧
             k2 = agentStateKey "collect_output_messages".data tid then
            match managerLoadState mgrJ, containersLoadState t.containers rest tid with
            | some (thread, ct, ns), some cs =>
                some { t with
                  containers := cs
                  message_thread := thread
                  current_turn := ct
                  next_speaker_index := ns }
            | _, _ => none
          else none
      | _, _ => none
  | _ => none

/-- A participant container with the configuration kept and all dynamic
state cleared, as in a freshly constructed team. -/
def freshContainer (c : ChatAgentContainer) : ChatAgentContainer :=
  ⟨⟨c.agent.name, c.agent.system_message, []⟩, []⟩

/-- Modelled from the spec: `RoundRobinGroupChat.reset` — clears the message
thread, the turn counters, and every participant's dynamic state, keeping
the configuration ("simulating instantiation of the team"). -/
def teamReset (t : RoundRobinGroupChat) : RoundRobinGroupChat :=
  { t with
    containers := t.containers.map freshContainer
    message_thread := []
    current_turn := 0
    next_speaker_index := 0 }

/-- The configuration of one participant: its name and system message. -/
def agentConfig (c : ChatAgentContainer) : List Char × List Char :=
  (c.agent.name, c.agent.system_message)

/-- A freshly instantiated team over the given participant configurations. -/
def freshTeam (tid : List Char) (configs : List (List Char × List Char)) :
    RoundRobinGroupChat :=
  ⟨tid, configs.map (fun p => ⟨⟨p.1, p.2, []⟩, []⟩), [], 0, 0⟩

/-! ### State round-trip lemmas -/

theorem listOfJArr_jarrOfList (l : List JVal) : listOfJArr (jarrOfList l) = l := by
  induction l with
  | nil => rfl
  | cons v vs ih => simp [jarrOfList, listOfJArr, ih]

theorem mapOpt_map {A B : Type} (f : A → B) (g : B → Option A)
    (h : ∀ x, g (f x) = some x) (l : List A) : mapOpt g (l.map f) = some l := by
  induction l with
  | nil => rfl
  | cons x xs ih => simp [mapOpt, h, ih]

theorem llmMessageOfJson_toJson (m : LlmMessage) :
    llmMessageOfJson (llmMessageToJson m) = some m := rfl

theorem usageOfJson_toJson (u : RequestUsage) :
    usageOfJson (usageToJson u) = some u := by
  show (if (u.prompt_tokens : Int) < 0 ∨ (u.completion_tokens : Int) < 0 then none
        else some (⟨((u.prompt_tokens : Int)).toNat,
          ((u.completion_tokens : Int)).toNat⟩ : RequestUsage)) = some u
  rw [if_neg (by omega)]
  have h1 : ((u.prompt_tokens : Int)).toNat = u.prompt_tokens := by omega
  have h2 : ((u.completion_tokens : Int)).toNat = u.completion_tokens := by omega
  rw [h1, h2]

theorem chatMessageOfJson_toJson (m : ChatMessage) :
    chatMessageOfJson (chatMessageToJson m) = some m := by
  obtain ⟨s, mu, c, ty⟩ := m
  cases mu with
  | none => rfl
  | some u =>
      show (match usageOfJson (usageToJson u) with
            | some ru => some (⟨s, some ru, c, ty⟩ : ChatMessage)
            | none => none) = some ⟨s, some u, c, ty⟩
      rw [usageOfJson_toJson]

theorem agentLoadState_agentSaveState (a b : AssistantAgent) :
    agentLoadState b (agentSaveState a)
      = some { b with llm_messages := a.llm_messages } := by
  show (match mapOpt llmMessageOfJson
          (listOfJArr (jarrOfList (a.llm_messages.map llmMessageToJson))) with
        | some ms => some ({ b with llm_messages := ms } : AssistantAgent)
        | none => none) = some { b with llm_messages := a.llm_messages }
  rw [listOfJArr_jarrOfList, mapOpt_map _ _ llmMessageOfJson_toJson]

theorem managerLoadState_managerSaveState (t : RoundRobinGroupChat) :
    managerLoadState (managerSaveState t)
      = some (t.message_thread, t.current_turn, t.next_speaker_index) := by
  show (match mapOpt chatMessageOfJson
          (listOfJArr (jarrOfList (t.message_thread.map chatMessageToJson))) with
        | some ms =>
            if (t.current_turn : Int) < 0 ∨ (t.next_speaker_index : Int) < 0 then none
            else some (ms, ((t.current_turn : Int)).toNat,
              ((t.next_speaker_index : Int)).toNat)
        | none => none)
      = some (t.message_thread, t.current_turn, t.next_speaker_index)
  rw [listOfJArr_jarrOfList, mapOpt_map _ _ chatMessageOfJson_toJson]
  have hc1 : ((t.current_turn : Int)).toNat = t.current_turn := by omega
  have hc2 : ((t.next_speaker_index : Int)).toNat = t.next_speaker_index := by omega
  simp only [if_neg (by omega :
    ¬((t.current_turn : Int) < 0 ∨ (t.next_speaker_index : Int) < 0)), hc1, hc2]

theorem containerLoadState_containerSaveState (c b : ChatAgentContainer) :
    containerLoadState b (containerSaveState c)
      = some ⟨{ b.agent with llm_messages := c.agent.llm_messages },
          c.message_buffer⟩ := by
  show (match agentLoadState b.agent (agentSaveState c.agent),
          mapOpt chatMessageOfJson
            (listOfJArr (jarrOfList (c.message_buffer.map chatMessageToJson))) with
        | some a2, some buf => some (⟨a2, buf⟩ : ChatAgentContainer)
        | _, _ => none)
      = some ⟨{ b.agent with llm_messages := c.agent.llm_messages }, c.message_buffer⟩
  rw [agentLoadState_agentSaveState, listOfJArr_jarrOfList,
    mapOpt_map _ _ chatMessageOfJson_toJson]

theorem containersLoadState_save :
    ∀ (cs bs : List ChatAgentContainer) (tid : List Char),
      bs.map agentConfig = cs.map agentConfig →
      containersLoadState bs
        (jobjOfList (cs.map fun c => (agentStateKey c.agent.name tid, containerSaveState c)))
        tid = some cs := by
  intro cs
  induction cs with
  | nil =>
      intro bs tid h
      cases bs with
      | nil => rfl
      | cons b bs2 => simp at h
  | cons c cs2 ih =>
      intro bs tid h
      cases bs with
      | nil => simp at h
      | cons b bs2 =>
          simp only [List.map_cons, List.cons.injEq] at h
          obtain ⟨h1, h2⟩ := h
          obtain ⟨⟨cn, csm, cl⟩, cbuf⟩ := c
          obtain ⟨⟨bn, bsm, bl⟩, bbuf⟩ := b
          simp only [agentConfig, Prod.mk.injEq] at h1
          obtain ⟨hn, hsm⟩ := h1
          subst hn; subst hsm
          simp only [List.map_cons, jobjOfList, containersLoadState, if_pos rfl,
            containerLoadState_containerSaveState, ih bs2 tid h2]
          simp

theorem teamLoadState_teamSaveState (t t2 : RoundRobinGroupChat)
    (h : t2.containers.map agentConfig = t.containers.map agentConfig) :
    teamLoadState t2 (teamSaveState t)
      = some ⟨t2.team_id, t.containers, t.message_thread,
          t.current_turn, t.next_speaker_index⟩ := by
  show (if agentStateKey "group_chat_manager".data t.team_id
            = agentStateKey "group_chat_manager".data t.team_id ∧
          agentStateKey "collect_output_messages".data t.team_id
            = agentStateKey "collect_output_messages".data t.team_id then
          (match managerLoadState (managerSaveState t),
              containersLoadState t2.containers
                (jobjOfList (t.containers.map fun c =>
                  (agentStateKey c.agent.name t.team_id, containerSaveState c)))
                t.team_id with
            | some (thread, ct, ns), some cs =>
                some ({ t2 with
                  containers := cs
                  message_thread := thread
                  current_turn := ct
                  next_speaker_index := ns } : RoundRobinGroupChat)
            | _, _ => none)
        else none)
      = some ⟨t2.team_id, t.containers, t.message_thread,
          t.current_turn, t.next_speaker_index⟩
  rw [if_pos ⟨rfl, rfl⟩, managerLoadState_managerSaveState,
    containersLoadState_save t.containers t2.containers t.team_id h]

/-- Characters on which the modelled `json.dump` escapes agree exactly with
Python (printable ASCII, newline, tab, carriage return); every string the
notebook's snapshots contain is of this form. -/
def wfChar (c : Char) : Bool :=
  (32 ≤ c.toNat && c.toNat ≤ 126) || c = '\n' || c = '\t' || c = '\r'

/-- A string within the fidelity range of the `json.dump` model. -/
def wfStr (s : List Char) : Bool := s.all wfChar

/-- Fidelity condition for one model-context message. -/
def wfLlmMessage (m : LlmMessage) : Bool :=
  wfStr m.content && wfStr m.source && wfStr m.msgType

/-- Fidelity condition for one chat message. -/
def wfChatMessage (m : ChatMessage) : Bool :=
  wfStr m.source && wfStr m.content && wfStr m.msgType

/-- Fidelity condition for one participant container. -/
def wfContainer (c : ChatAgentContainer) : Bool :=
  wfStr c.agent.name && c.agent.llm_messages.all wfLlmMessage &&
    c.message_buffer.all wfChatMessage

/-- Fidelity condition for a whole team state: every string in its snapshot
is one Python renders with the modelled escapes. -/
def wfTeam (t : RoundRobinGroupChat) : Bool :=
  wfStr t.team_id && t.containers.all wfContainer &&
    t.message_thread.all wfChatMessage

/-! ### Part 3: the notebook program

A syntactic embedding of the notebook's code cells, statement by statement.
Expression and statement forms that the notebook never uses (branches,
loops, function and class definitions, try/except, raise) are constructors
of the embedding too, so that "the program contains none" is a statement
about this program rather than an artifact of the type. -/

/-- Python expressions, as used in the notebook (lists of arguments and of
keyword arguments are encoded with `enil`/`econs` chains so that every
traversal is plain structural recursion). -/
inductive PExpr : Type where
  | pvar (name : String) : PExpr
  | strLit (s : String) : PExpr
  | intLit (n : Int) : PExpr
  | listLit (elems : PExpr) : PExpr
  | attr (obj : PExpr) (field : String) : PExpr
  | call (fn args kwargs : PExpr) : PExpr
  | kw (name : String) (value : PExpr) : PExpr
  | awaitE (e : PExpr) : PExpr
  | enil : PExpr
  | econs (head tail : PExpr) : PExpr
deriving DecidableEq

/-- Python statements, with sequencing built in (`snil`/`sseq`). -/
inductive PStmt : Type where
  | snil : PStmt
  | sseq (first rest : PStmt) : PStmt
  | importFrom (module : String) (names : List String) : PStmt
  | importMod (module : String) : PStmt
  | assign (lhs : String) (rhs : PExpr) : PStmt
  | exprStmt (e : PExpr) : PStmt
  | withOpen (path mode binder : String) (body : PStmt) : PStmt
  | funcDef (name : String) (body : PStmt) : PStmt
  | classDef (name : String) (body : PStmt) : PStmt
  | ifStmt (cond : PExpr) (thenBody elseBody : PStmt) : PStmt
  | forStmt (v : String) (iter : PExpr) (body : PStmt) : PStmt
  | whileStmt (cond : PExpr) (body : PStmt) : PStmt
  | tryStmt (body handler : PStmt) : PStmt
  | raiseStmt (e : PExpr) : PStmt
deriving DecidableEq

/-- Argument chain from a list of expressions. -/
def pArgs (l : List PExpr) : PExpr := l.foldr .econs .enil

/-- A call of a plain name: `f(args, kwargs)`. -/
def pCallN (f : String) (args kwargs : List PExpr) : PExpr :=
  .call (.pvar f) (pArgs args) (pArgs kwargs)

/-- A method call on a named object: `obj.m(args, kwargs)`. -/
def pMeth (obj m : String) (args kwargs : List PExpr) : PExpr :=
  .call (.attr (.pvar obj) m) (pArgs args) (pArgs kwargs)

/-- Statement sequence from a list. -/
def pSeq (l : List PStmt) : PStmt := l.foldr .sseq .snil

/-- The `OpenAIChatCompletionClient(model="gpt-4o-2024-08-06")` constructor
call the notebook repeats. -/
def clientCtor : PExpr :=
  pCallN "OpenAIChatCompletionClient" [] [.kw "model" (.strLit "gpt-4o-2024-08-06")]

/-- The `AssistantAgent(name=..., system_message=..., model_client=...)`
constructor call the notebook repeats. -/
def agentCtor : PExpr :=
  pCallN "AssistantAgent" []
    [.kw "name" (.strLit "assistant_agent"),
     .kw "system_message" (.strLit "You are a helpful assistant"),
     .kw "model_client" (.pvar "model_client")]

/-- The `RoundRobinGroupChat([assistant_agent], termination_condition=
MaxMessageTermination(max_messages=2))` constructor call. -/
def teamCtor : PExpr :=
  pCallN "RoundRobinGroupChat" [.listLit (pArgs [.pvar "assistant_agent"])]
    [.kw "termination_condition"
      (pCallN "MaxMessageTermination" [] [.kw "max_messages" (.intLit 2)])]

/-- An `await x.on_messages([TextMessage(content=..., source="user")],
CancellationToken())` call. -/
def onMessagesCall (obj content : String) : PExpr :=
  .awaitE (pMeth obj "on_messages"
    [.listLit (pArgs [pCallN "TextMessage" []
        [.kw "content" (.strLit content), .kw "source" (.strLit "user")]]),
     pCallN "CancellationToken" [] []]
    [])

/-- The notebook program, cell by cell, statement by statement. -/
def notebookProgram : PStmt := pSeq [
  -- cell 1: imports, client, agent, a run with a cancellation token
  .importFrom "autogen_agentchat.agents" ["AssistantAgent"],
  .importFrom "autogen_agentchat.conditions" ["MaxMessageTermination"],
  .importFrom "autogen_agentchat.messages" ["TextMessage"],
  .importFrom "autogen_agentchat.teams" ["RoundRobinGroupChat"],
  .importFrom "autogen_agentchat.ui" ["Console"],
  .importFrom "autogen_core" ["CancellationToken"],
  .importFrom "autogen_ext.models.openai" ["OpenAIChatCompletionClient"],
  .assign "model_client" clientCtor,
  .assign "assistant_agent" agentCtor,
  .assign "response" (onMessagesCall "assistant_agent"
    "Write a 3 line poem on lake tangayika"),
  .exprStmt (pCallN "print" [.attr (.pvar "response") "chat_message"] []),
  .exprStmt (.awaitE (pMeth "model_client" "close" [] [])),
  -- cell 2: save the agent state
  .assign "agent_state" (.awaitE (pMeth "assistant_agent" "save_state" [] [])),
  .exprStmt (pCallN "print" [.pvar "agent_state"] []),
  -- cell 3: new agent, load the state, ask about the previous poem
  .assign "model_client" clientCtor,
  .assign "new_assistant_agent" agentCtor,
  .exprStmt (.awaitE (pMeth "new_assistant_agent" "load_state" [.pvar "agent_state"] [])),
  .assign "response" (onMessagesCall "new_assistant_agent"
    "What was the last line of the previous poem you wrote"),
  .exprStmt (pCallN "print" [.attr (.pvar "response") "chat_message"] []),
  .exprStmt (.awaitE (pMeth "model_client" "close" [] [])),
  -- cell 6: team, run, save the team state
  .assign "model_client" clientCtor,
  .assign "assistant_agent" agentCtor,
  .assign "agent_team" teamCtor,
  .assign "stream" (pMeth "agent_team" "run_stream" []
    [.kw "task" (.strLit "Write a beautiful poem 3-line about lake tangayika")]),
  .exprStmt (.awaitE (pCallN "Console" [.pvar "stream"] [])),
  .assign "team_state" (.awaitE (pMeth "agent_team" "save_state" [] [])),
  -- cell 8: reset, ask again
  .exprStmt (.awaitE (pMeth "agent_team" "reset" [] [])),
  .assign "stream" (pMeth "agent_team" "run_stream" []
    [.kw "task" (.strLit "What was the last line of the poem you wrote?")]),
  .exprStmt (.awaitE (pCallN "Console" [.pvar "stream"] [])),
  -- cell 10: load the team state, ask again
  .exprStmt (pCallN "print" [.pvar "team_state"] []),
  .exprStmt (.awaitE (pMeth "agent_team" "load_state" [.pvar "team_state"] [])),
  .assign "stream" (pMeth "agent_team" "run_stream" []
    [.kw "task" (.strLit "What was the last line of the poem you wrote?")]),
  .exprStmt (.awaitE (pCallN "Console" [.pvar "stream"] [])),
  -- cell 12: persist to disk, read back, load into a new team
  .importMod "json",
  .withOpen "coding/team_state.json" "w" "f"
    (pSeq [.exprStmt (pMeth "json" "dump" [.pvar "team_state", .pvar "f"] [])]),
  .withOpen "coding/team_state.json" "r" "f"
    (pSeq [.assign "team_state" (pMeth "json" "load" [.pvar "f"] [])]),
  .assign "new_agent_team" teamCtor,
  .exprStmt (.awaitE (pMeth "new_agent_team" "load_state" [.pvar "team_state"] [])),
  .assign "stream" (pMeth "new_agent_team" "run_stream" []
    [.kw "task" (.strLit "What was the last line of the poem you wrote?")]),
  .exprStmt (.awaitE (pCallN "Console" [.pvar "stream"] [])),
  .exprStmt (.awaitE (pMeth "model_client" "close" [] []))]

/-! ### Structural analyses of the program -/

/-- Number of expression nodes satisfying a predicate, over a whole
expression tree. -/
def countE (p : PExpr → Bool) : PExpr → Nat
  | .pvar n => if p (.pvar n) then 1 else 0
  | .strLit s => if p (.strLit s) then 1 else 0
  | .intLit n => if p (.intLit n) then 1 else 0
  | .listLit x => (if p (.listLit x) then 1 else 0) + countE p x
  | .attr o f => (if p (.attr o f) then 1 else 0) + countE p o
  | .call f a k => (if p (.call f a k) then 1 else 0) + countE p f + countE p a + countE p k
  | .kw n v => (if p (.kw n v) then 1 else 0) + countE p v
  | .awaitE e => (if p (.awaitE e) then 1 else 0) + countE p e
  | .enil => if p .enil then 1 else 0
  | .econs h t => (if p (.econs h t) then 1 else 0) + countE p h + countE p t

/-- Number of expression nodes satisfying a predicate, over every
expression of a program. -/
def countInStmt (p : PExpr → Bool) : PStmt → Nat
  | .snil => 0
  | .sseq a b => countInStmt p a + countInStmt p b
  | .importFrom _ _ => 0
  | .importMod _ => 0
  | .assign _ e => countE p e
  | .exprStmt e => countE p e
  | .withOpen _ _ _ body => countInStmt p body
  | .funcDef _ body => countInStmt p body
  | .classDef _ body => countInStmt p body
  | .ifStmt c a b => countE p c + countInStmt p a + countInStmt p b
  | .forStmt _ it body => countE p it + countInStmt p body
  | .whileStmt c body => countE p c + countInStmt p body
  | .tryStmt body h => countInStmt p body + countInStmt p h
  | .raiseStmt e => countE p e

/-- Number of statement nodes satisfying a predicate, nested bodies
included. -/
def countStmtKind (q : PStmt → Bool) : PStmt → Nat
  | .snil => if q .snil then 1 else 0
  | .sseq a b => (if q (.sseq a b) then 1 else 0) + countStmtKind q a + countStmtKind q b
  | .importFrom m ns => if q (.importFrom m ns) then 1 else 0
  | .importMod m => if q (.importMod m) then 1 else 0
  | .assign l e => if q (.assign l e) then 1 else 0
  | .exprStmt e => if q (.exprStmt e) then 1 else 0
  | .withOpen pa mo bi body =>
      (if q (.withOpen pa mo bi body) then 1 else 0) + countStmtKind q body
  | .funcDef n body => (if q (.funcDef n body) then 1 else 0) + countStmtKind q body
  | .classDef n body => (if q (.classDef n body) then 1 else 0) + countStmtKind q body
  | .ifStmt c a b =>
      (if q (.ifStmt c a b) then 1 else 0) + countStmtKind q a + countStmtKind q b
  | .forStmt v it body => (if q (.forStmt v it body) then 1 else 0) + countStmtKind q body
  | .whileStmt c body => (if q (.whileStmt c body) then 1 else 0) + countStmtKind q body
  | .tryStmt body h =>
      (if q (.tryStmt body h) then 1 else 0) + countStmtKind q body + countStmtKind q h
  | .raiseStmt e => if q (.raiseStmt e) then 1 else 0

/-- An inline `CancellationToken()` construction. -/
def isCTCtor : PExpr → Bool
  | .call (.pvar n) .enil .enil => n == "CancellationToken"
  | _ => false

/-- Whether an argument chain contains a `CancellationToken()` among its
direct elements. -/
def hasCTArg : PExpr → Bool
  | .econs h t => isCTCtor h || hasCTArg t
  | _ => false

/-- A call that receives a cancellation token as one of its arguments. -/
def receivesCT : PExpr → Bool
  | .call _ a k => hasCTArg a || hasCTArg k
  | _ => false

/-- Number of calls in the program that receive a cancellation token. -/
def ctCallCount (s : PStmt) : Nat := countInStmt receivesCT s

/-- Number of expression references to the `CancellationToken` name. -/
def ctNameCount (s : PStmt) : Nat :=
  countInStmt (fun e => e == .pvar "CancellationToken") s

/-- Number of `.cancel`-method accesses in the program. -/
def cancelAttrCount (s : PStmt) : Nat :=
  countInStmt (fun e =>
    match e with
    | .attr _ f => f == "cancel"
    | _ => false) s

/-- The coroutine-returning library calls the notebook uses (each must be
awaited); `run_stream` returns an async generator and is driven by
`Console`, so it is not in this list. -/
def asyncNames : List String :=
  ["on_messages", "save_state", "load_state", "reset", "close"]

/-- A call of an asynchronous API (an async method, or `Console(...)`). -/
def isAsyncCall : PExpr → Bool
  | .call (.attr _ m) _ _ => asyncNames.contains m
  | .call (.pvar f) _ _ => f == "Console"
  | _ => false

/-- Number of asynchronous API calls in the program. -/
def asyncCallCount (s : PStmt) : Nat := countInStmt isAsyncCall s

/-- Number of asynchronous API calls that stand directly under an `await`. -/
def awaitedAsyncCount (s : PStmt) : Nat :=
  countInStmt (fun e =>
    match e with
    | .awaitE b => isAsyncCall b
    | _ => false) s

/-- Number of references to task-spawning concurrency primitives. -/
def spawnRefCount (s : PStmt) : Nat :=
  countInStmt (fun e =>
    match e with
    | .pvar f => f == "gather" || f == "create_task" || f == "ensure_future"
    | .attr _ f => f == "gather" || f == "create_task" || f == "ensure_future"
    | _ => false) s

/-- Number of `await` expression nodes in a tree. -/
def awaitCountE (e : PExpr) : Nat :=
  countE (fun x =>
    match x with
    | .awaitE _ => true
    | _ => false) e

/-- An expression whose only permitted `await` is at its very top: either
`await e` with an await-free `e`, or an await-free expression. -/
def topAwaitOk : PExpr → Bool
  | .awaitE b => awaitCountE b == 0
  | e => awaitCountE e == 0

/-- Every `await` in the program stands at statement top level (so each
asynchronous operation finishes before the next statement starts). -/
def stmtAwaitsTopLevel : PStmt → Bool
  | .snil => true
  | .sseq a b => stmtAwaitsTopLevel a && stmtAwaitsTopLevel b
  | .importFrom _ _ => true
  | .importMod _ => true
  | .assign _ e => topAwaitOk e
  | .exprStmt e => topAwaitOk e
  | .withOpen _ _ _ body => stmtAwaitsTopLevel body
  | .funcDef _ body => stmtAwaitsTopLevel body
  | .classDef _ body => stmtAwaitsTopLevel body
  | .ifStmt c a b =>
      awaitCountE c == 0 && stmtAwaitsTopLevel a && stmtAwaitsTopLevel b
  | .forStmt _ it body => awaitCountE it == 0 && stmtAwaitsTopLevel body
  | .whileStmt c body => awaitCountE c == 0 && stmtAwaitsTopLevel body
  | .tryStmt body h => stmtAwaitsTopLevel body && stmtAwaitsTopLevel h
  | .raiseStmt e => awaitCountE e == 0

/-- A straight-line statement: sequencing, imports, assignments, bare
expressions and `with open(...)` blocks only — no function or class
definition, no branch, no loop, no try/except, no raise. -/
def isLinear : PStmt → Bool
  | .snil => true
  | .sseq a b => isLinear a && isLinear b
  | .importFrom _ _ => true
  | .importMod _ => true
  | .assign _ _ => true
  | .exprStmt _ => true
  | .withOpen _ _ _ body => isLinear body
  | .funcDef _ _ => false
  | .classDef _ _ => false
  | .ifStmt _ _ _ => false
  | .forStmt _ _ _ => false
  | .whileStmt _ _ => false
  | .tryStmt _ _ => false
  | .raiseStmt _ => false

/-- Statement-kind tests for the "absent construct" counts. -/
def isTryStmt : PStmt → Bool
  | .tryStmt _ _ => true
  | _ => false

/-- Test for a `raise` statement. -/
def isRaiseStmt : PStmt → Bool
  | .raiseStmt _ => true
  | _ => false

/-- Test for an `if` statement. -/
def isIfStmt : PStmt → Bool
  | .ifStmt _ _ _ => true
  | _ => false

/-- Test for a `for` or `while` loop. -/
def isLoopStmt : PStmt → Bool
  | .forStmt _ _ _ => true
  | .whileStmt _ _ => true
  | _ => false

/-- Test for a function definition. -/
def isFuncDefStmt : PStmt → Bool
  | .funcDef _ _ => true
  | _ => false

/-- Test for a class definition. -/
def isClassDefStmt : PStmt → Bool
  | .classDef _ _ => true
  | _ => false

/-! ### Claim theorems -/

/-- Top-level field lookup on a snapshot dictionary. -/
def topGet (key : List Char) : JVal → Option JVal
  | .jobj o => jGet key o
  | _ => none

/-- The entries of a snapshot object, in order. -/
def objEntries : JObj → List (List Char × JVal)
  | .onil => []
  | .ocons k v t => (k, v) :: objEntries t

/-- The top-level keys of a snapshot, in order. -/
def topKeys : JVal → List (List Char)
  | .jobj o => (objEntries o).map Prod.fst
  | _ => []

theorem objEntries_jobjOfList (l : List (List Char × JVal)) :
    objEntries (jobjOfList l) = l := by
  induction l with
  | nil => rfl
  | cons p rest ih =>
      obtain ⟨k, v⟩ := p
      simp [jobjOfList, objEntries, ih]

/-- A concrete team in the notebook's scenario: one `assistant_agent`
participant, a two-message thread, and the printed team id. -/
def sampleAgent : AssistantAgent :=
  ⟨"assistant_agent".data, "You are a helpful assistant".data,
   [⟨"Write a beautiful poem 3-line about lake tangayika".data, "user".data,
     "UserMessage".data⟩,
    ⟨"In Tanganyika gleam, beneath the azure skies".data, "assistant_agent".data,
     "AssistantMessage".data⟩]⟩

/-- The sample participant container. -/
def sampleContainer : ChatAgentContainer := ⟨sampleAgent, []⟩

/-- The sample team state captured after the notebook's first team run. -/
def sampleTeam : RoundRobinGroupChat :=
  ⟨"a55364ad-86fd-46ab-9449-dcb5260b1e06".data, [sampleContainer],
   [⟨"user".data, none,
     "Write a beautiful poem 3-line about lake tangayika".data, "TextMessage".data⟩,
    ⟨"assistant_agent".data, some ⟨29, 34⟩,
     "In Tanganyika gleam, beneath the azure skies".data, "TextMessage".data⟩],
   0, 0⟩

/-- C1: for every team state dictionary returned by `save_state`, writing
it with `json.dump` and reading it back with `json.load` yields an equal
dictionary, and the read-back value is accepted by `load_state` on a team.
The fidelity hypothesis `wfTeam` restricts to states whose strings are ones
the modelled `json.dump` escapes exactly as Python does (printable ASCII
plus newline, tab, carriage return) — every string in the notebook is of
this form. -/
theorem C1_team_state_json_roundtrip (t : RoundRobinGroupChat)
    (_hwf : wfTeam t = true) :
    jsonLoad (jsonDump (teamSaveState t)) = some (teamSaveState t) ∧
    (teamLoadState t (teamSaveState t)).isSome = true := by
  refine ⟨jsonLoad_jsonDump (teamSaveState t), ?_⟩
  rw [teamLoadState_teamSaveState t t rfl]
  rfl

/-- C1, witness: the round trip and acceptance at the notebook's concrete
team state. -/
theorem C1_team_state_json_roundtrip_witness :
    wfTeam sampleTeam = true ∧
    (jsonLoad (jsonDump (teamSaveState sampleTeam)) = some (teamSaveState sampleTeam) ∧
     (teamLoadState sampleTeam (teamSaveState sampleTeam)).isSome = true) :=
  ⟨by decide, C1_team_state_json_roundtrip sampleTeam (by decide)⟩

/-- C2: loading a saved state into a freshly constructed component with
the same configuration restores the recorded message history — a fresh
`AssistantAgent` gets back exactly the saved `llm_messages`, and a fresh
`RoundRobinGroupChat` over the same participants gets back the saved
containers (hence every participant's `llm_messages`) and the saved
`message_thread`, turn counter, and speaker index. -/
theorem C2_load_state_restores_history :
    (∀ a : AssistantAgent,
      agentLoadState ⟨a.name, a.system_message, []⟩ (agentSaveState a)
        = some ⟨a.name, a.system_message, a.llm_messages⟩) ∧
    (∀ (t : RoundRobinGroupChat) (tid : List Char),
      teamLoadState (freshTeam tid (t.containers.map agentConfig)) (teamSaveState t)
        = some ⟨tid, t.containers, t.message_thread,
            t.current_turn, t.next_speaker_index⟩) := by
  constructor
  · intro a
    rw [agentLoadState_agentSaveState a ⟨a.name, a.system_message, []⟩]
  · intro t tid
    have hcfg : (freshTeam tid (t.containers.map agentConfig)).containers.map agentConfig
        = t.containers.map agentConfig := by
      simp [freshTeam, List.map_map, agentConfig, Function.comp]
    rw [teamLoadState_teamSaveState t (freshTeam tid (t.containers.map agentConfig)) hcfg]
    rfl

/-- C3: every snapshot is a nested key-value structure — an agent snapshot
has exactly the top-level fields `type`, `version`, `llm_messages`, and a
team snapshot exactly `type`, `version`, `agent_states`, `team_id`. -/
theorem C3_snapshot_fields :
    (∀ a : AssistantAgent,
      topKeys (agentSaveState a)
        = ["type".data, "version".data, "llm_messages".data]) ∧
    (∀ t : RoundRobinGroupChat,
      topKeys (teamSaveState t)
        = ["type".data, "version".data, "agent_states".data, "team_id".data]) :=
  ⟨fun _ => rfl, fun _ => rfl⟩

/-- C4, counterexample: the claim says exactly one call in the program
receives a cancellation token, but the notebook passes a
`CancellationToken()` into two calls (both `on_messages` calls), so the
count is 2, not 1. -/
theorem C4_counterexample : ¬(ctCallCount notebookProgram = 1) := by decide

/-- C4, amended: exactly two calls in the program receive a cancellation
token, each a `CancellationToken()` built at the call site; no other
cancellation logic appears anywhere — the only expression references to
`CancellationToken` are those two arguments, and no `.cancel` method is
ever used. -/
theorem C4_two_cancellation_token_calls :
    ctCallCount notebookProgram = 2 ∧
    ctNameCount notebookProgram = 2 ∧
    cancelAttrCount notebookProgram = 0 := by decide

/-- C5: no error path, retry, or failure-handling construct appears in the
program — no try/except, no raise, no branch (so no result is inspected
for failure), and no loop (so no call is re-attempted). -/
theorem C5_no_error_handling :
    countStmtKind isTryStmt notebookProgram = 0 ∧
    countStmtKind isRaiseStmt notebookProgram = 0 ∧
    countStmtKind isIfStmt notebookProgram = 0 ∧
    countStmtKind isLoopStmt notebookProgram = 0 := by decide

/-- C6: all asynchronous calls are awaited and strictly sequential — every
asynchronous API call stands directly under an `await`, every `await` is at
statement top level (so each operation completes before the next
statement), and no task-spawning primitive (`gather`, `create_task`,
`ensure_future`) is referenced, so no two operations are ever in flight at
once and no shared resource is accessed under contention. -/
theorem C6_sequential_awaits :
    awaitedAsyncCount notebookProgram = asyncCallCount notebookProgram ∧
    stmtAwaitsTopLevel notebookProgram = true ∧
    spawnRefCount notebookProgram = 0 := by decide

/-- C7: the program is a straight-line sequence of imports, assignments,
bare expression statements and `with open` blocks — it defines no
function, class, branch, or loop of its own. -/
theorem C7_straight_line :
    isLinear notebookProgram = true ∧
    countStmtKind isFuncDefStmt notebookProgram = 0 ∧
    countStmtKind isClassDefStmt notebookProgram = 0 := by decide

/-- C8: the dictionary returned by a team's `save_state` contains, under
`agent_states`, one entry for each participating agent (keyed
`name/team_id`, holding that participant's saved container state),
alongside the team's own orchestration entries. -/
theorem C8_agent_states_entries (t : RoundRobinGroupChat)
    (c : ChatAgentContainer) (hc : c ∈ t.containers) :
    ∃ S : JObj, topGet "agent_states".data (teamSaveState t) = some (.jobj S) ∧
      (agentStateKey c.agent.name t.team_id, containerSaveState c) ∈ objEntries S := by
  refine ⟨_, rfl, ?_⟩
  refine List.mem_cons_of_mem _ (List.mem_cons_of_mem _ ?_)
  rw [objEntries_jobjOfList]
  exact List.mem_map_of_mem _ hc

/-- C8, witness: the sample participant's entry is present in the sample
team's saved `agent_states`. -/
theorem C8_agent_states_entries_witness :
    sampleContainer ∈ sampleTeam.containers ∧
    (∃ S : JObj,
      topGet "agent_states".data (teamSaveState sampleTeam) = some (.jobj S) ∧
      (agentStateKey sampleContainer.agent.name sampleTeam.team_id,
        containerSaveState sampleContainer) ∈ objEntries S) :=
  ⟨by decide, C8_agent_states_entries sampleTeam sampleContainer (by decide)⟩

/-- C9: after `reset`, the team's state equals that of a freshly
instantiated team over the same participant configurations — in
particular its message thread is empty and no participant retains any
model context, so nothing refers to a previous run. -/
theorem C9_reset_is_fresh (t : RoundRobinGroupChat) :
    teamReset t = freshTeam t.team_id (t.containers.map agentConfig) ∧
    (teamReset t).message_thread = [] := by
  refine ⟨?_, rfl⟩
  simp only [teamReset, freshTeam, List.map_map]
  rfl
